import Mathlib

/-!
Shallow embedding of the simple-yt-downloader repository
(src/yt_downloader.py and src/ffmpeg_manager.py) and proofs of the
specification's claims about it.

Modelling conventions:
* Python strings are Lean `String`s; Python's substring test `pat in s`
  is `containsSub s pat`; `s.strip()` is `pyStrip`; `s.lower()` is
  `pyLower`.
* The status sink (`status_callback`) is modelled as the ordered list
  of strings delivered to it (the trace).
* Subprocess and filesystem behaviour is an explicit environment value:
  the lines a child process produces, its exit code, whether a network
  download succeeds, which members the downloaded archive holds, and so
  on.  Each embedded function is total in that environment; a Python
  exception escaping a function is an `Except.error` result, and a
  `try/except` block in the source is a `match` on that result.
-/

namespace YtDownloader

/-- `isStartOf p l` is true when `p` is an initial segment of `l`
(character-list version of Python string prefix testing). -/
def isStartOf : List Char → List Char → Bool
  | [], _ => true
  | _ :: _, [] => false
  | a :: p, b :: l => a == b && isStartOf p l

/-- `charsSub p l` is true when `p` occurs contiguously inside `l`. -/
def charsSub (p : List Char) : List Char → Bool
  | [] => isStartOf p []
  | c :: l => isStartOf p (c :: l) || charsSub p l

/-- Python's substring test `pat in s`. -/
def containsSub (s pat : String) : Bool :=
  charsSub pat.data s.data

/-- Python's `s.endswith(pat)` (used on lowered archive member names). -/
def strEndsWith (s pat : String) : Bool :=
  isStartOf pat.data.reverse s.data.reverse

/-- Python's `s.lower()`: each character lowered (ASCII case mapping,
which is all the compared literals use). -/
def pyLower (s : String) : String :=
  ⟨s.data.map Char.toLower⟩

/-- A character Python's `str.strip()` removes. -/
def isSpaceChar (c : Char) : Bool :=
  c == ' ' || c == '\t' || c == '\n' || c == '\r' || c == '\x0b' || c == '\x0c'

/-- Python's `s.strip()`: leading and trailing whitespace removed. -/
def pyStrip (s : String) : String :=
  ⟨((s.data.dropWhile isSpaceChar).reverse.dropWhile isSpaceChar).reverse⟩

/-! ### Output-line filtering (src/yt_downloader.py lines 106-116 / 160-170)

`download_video` and `download_audio` run the same loop over the
subprocess output: strip the line, compare lowercase, skip
percentage/speed/"ios player" lines, and report one postprocessing
notice for the first line mentioning merging or postprocessing. -/

/-- The skip condition of the loop:
`if "%" in stripped or "speed" in lower or "ios player" in lower: continue`. -/
def lineSkipped (stripped : String) : Bool :=
  containsSub stripped "%" || containsSub (pyLower stripped) "speed" ||
    containsSub (pyLower stripped) "ios player"

/-- The postprocessing condition of the loop:
`("merg" in lower or "postprocess" in lower)`. -/
def linePostprocessing (stripped : String) : Bool :=
  containsSub (pyLower stripped) "merg" || containsSub (pyLower stripped) "postprocess"

/-- One iteration of the output loop: given the `postprocessing_reported`
flag and the raw line, the messages sent to the sink and the new flag. -/
def handleLine (postprocessingReported : Bool) (line : String) :
    List String × Bool :=
  let stripped := pyStrip line
  if lineSkipped stripped then ([], postprocessingReported)
  else if linePostprocessing stripped && !postprocessingReported then
    (["Postprocessing downloads"], true)
  else ([], postprocessingReported)

/-- The whole output loop: messages sent to the sink for a list of
subprocess output lines, starting with `postprocessing_reported = False`. -/
def processLines (lines : List String) : List String × Bool :=
  lines.foldl (fun st line =>
    let r := handleLine st.2 line
    (st.1 ++ r.1, r.2)) ([], false)

/-! ### Per-item download functions (src/yt_downloader.py lines 70-180)

The subprocess behaviour is an environment value: either the process ran
and produced some output lines and an exit code, or some step inside the
`try` block raised after the given lines had been read. -/

/-- Behaviour of one `yt_dlp` child process invocation. -/
inductive SpawnResult where
  | ran (lines : List String) (returncode : Int)
  | fault (linesRead : List String) (err : String)

/-- `download_video(url, download_path, status_callback)`:
the messages sent to the sink and the returned boolean. The destination
path only feeds the child's command line, so it does not appear here. -/
def download_video (url : String) (proc : SpawnResult) : List String × Bool :=
  match proc with
  | .ran lines rc =>
    let msgs := (processLines lines).1
    if rc == 0 then (msgs ++ [s!"Completed video: {url}"], true)
    else (msgs ++ [s!"Error downloading video: {url}"], false)
  | .fault linesRead e =>
    let msgs := (processLines linesRead).1
    (msgs ++ [s!"Exception downloading video: {url}\n{e}"], false)

/-- `download_audio(url, download_path, status_callback)`:
same structure as `download_video` with the audio wording. -/
def download_audio (url : String) (proc : SpawnResult) : List String × Bool :=
  match proc with
  | .ran lines rc =>
    let msgs := (processLines lines).1
    if rc == 0 then (msgs ++ [s!"Completed audio: {url}"], true)
    else (msgs ++ [s!"Error downloading audio: {url}"], false)
  | .fault linesRead e =>
    let msgs := (processLines linesRead).1
    (msgs ++ [s!"Exception downloading audio: {url}\n{e}"], false)

/-! ### Batch download runner (src/yt_downloader.py lines 183-208)

`download_playlist_concurrently` submits every URL to a
`ThreadPoolExecutor` and then walks the futures in completion order
(`as_completed`).  The pool itself is Python library code outside this
repository, so the embedding takes the completion order as an
environment parameter; `poolCompletionOrder` below delimits which
orders the pool can produce.  Each worker's own sink messages are part
of its `ItemRun`; the `as_completed` loop then appends, per finished
item, the caught-exception message (if the future raised) and the
locked counter-increment progress message. -/

/-- The observable behaviour of one `download_func(url, path, sink)`
call inside a worker: the messages it sent to the sink while running,
and its result — `Except.error` when the call itself raised, so that
`future.result()` re-raises inside the `as_completed` loop. -/
structure ItemRun where
  msgs : List String
  result : Except String Bool

/-- `max_workers = os.cpu_count() or 4`: Python's `or` replaces a
`None` (and a falsy `0`) count by 4. -/
def effectiveWorkers : Option Nat → Nat
  | none => 4
  | some n => if n == 0 then 4 else n

/-- The initial sink message of the runner. -/
def foundMsg (total workers : Nat) : String :=
  s!"Found {total} items. Using {workers} threads..."

/-- The per-item progress message emitted under the lock. -/
def progressMsg (completed total : Nat) : String :=
  s!"Downloads completed {completed}/{total}"

/-- The message emitted when `future.result()` raised. -/
def exceptionMsg (url exc : String) : String :=
  s!"Exception for {url}: {exc}"

/-- The terminal sink message of the runner. -/
def terminalMsg : String := "Playlist download completed!"

/-- Messages of the `except Exception as exc:` branch of the
`as_completed` loop: one message when the future raised, none otherwise. -/
def faultMsgs (url : String) : Except String Bool → List String
  | .ok _ => []
  | .error exc => [exceptionMsg url exc]

/-- Shared state of the runner: the `completed` counter and the sink
trace so far. -/
structure BatchState where
  completed : Nat
  trace : List String
deriving DecidableEq

/-- One iteration of the `as_completed` loop for the finished item
`url`: the worker's own messages were delivered while it ran, then the
loop catches a raising `future.result()`, and increments `completed`
under the lock while emitting the progress message. -/
def stepItem (total : Nat) (runOf : String → ItemRun) (st : BatchState)
    (url : String) : BatchState :=
  let run := runOf url
  { completed := st.completed + 1
    trace := st.trace ++ run.msgs ++ faultMsgs url run.result ++
      [progressMsg (st.completed + 1) total] }

/-- `download_playlist_concurrently(video_urls, download_path,
download_func, status_callback)`.  `runOf` is the behaviour of
`download_func` on each URL, `completionOrder` the order in which the
pool finishes the submitted futures, `cpuCount` the value of
`os.cpu_count()`.  Returns the final counter and the full sink trace. -/
def download_playlist_concurrently (videoUrls : List String)
    (runOf : String → ItemRun) (completionOrder : List String)
    (cpuCount : Option Nat) : BatchState :=
  let total := videoUrls.length
  let maxWorkers := effectiveWorkers cpuCount
  let st0 : BatchState := { completed := 0, trace := [foundMsg total maxWorkers] }
  let st := completionOrder.foldl (stepItem total runOf) st0
  { st with trace := st.trace ++ [terminalMsg] }

/-- Modelled from the spec: the completion orders a bounded FIFO worker
pool can produce. `ThreadPoolExecutor` is Python library code outside
this repository; every completion order is a permutation of the
submitted URLs, and with a single worker the tasks run one at a time in
submission order, so the completion order is the submission order. -/
def poolCompletionOrder (maxWorkers : Nat) (submitted order : List String) : Prop :=
  order.Perm submitted ∧ (maxWorkers = 1 → order = submitted)

/-- Follows the spec's words for the degenerate one-worker case: all
items process strictly sequentially, in submission order, each
completion incrementing the counter and emitting its progress message
in that same order. -/
def runBatchSequentialSpec (videoUrls : List String)
    (runOf : String → ItemRun) (cpuCount : Option Nat) : BatchState :=
  let total := videoUrls.length
  let maxWorkers := effectiveWorkers cpuCount
  let st0 : BatchState := { completed := 0, trace := [foundMsg total maxWorkers] }
  let st := videoUrls.foldl (stepItem total runOf) st0
  { st with trace := st.trace ++ [terminalMsg] }

/-- Characterisation helper: the sink messages the `as_completed` loop
appends for the finished items `perm` when the counter currently holds
`c` — per item its worker's messages, the caught-exception report if it
raised, and the numbered progress message. -/
def traceChunks (total : Nat) (runOf : String → ItemRun) :
    List String → Nat → List String
  | [], _ => []
  | url :: rest, c =>
    (runOf url).msgs ++ faultMsgs url (runOf url).result ++
      [progressMsg (c + 1) total] ++ traceChunks total runOf rest (c + 1)

/-- The successive values the shared `completed` counter takes over a
run of the `as_completed` loop, initial value included. -/
def counterValues (total : Nat) (runOf : String → ItemRun) :
    BatchState → List String → List Nat
  | st, [] => [st.completed]
  | st, url :: rest =>
    st.completed :: counterValues total runOf (stepItem total runOf st url) rest

/-- The runner's numbered progress messages `1/total` … `total/total`
in order. -/
def progressList (total : Nat) : List String :=
  (List.range' 1 total).map (fun c => progressMsg c total)

/-- `download_video` plugged in as the runner's `download_func`: the
worker delivers `download_video`'s sink messages, and the future's
result is always `Except.ok` of its boolean, because the embedded
`download_video` is total — its `try/except` converts every fault into
a `False` return. -/
def videoItemRun (procOf : String → SpawnResult) (url : String) : ItemRun :=
  ⟨(download_video url (procOf url)).1, .ok (download_video url (procOf url)).2⟩

/-- `download_audio` plugged in as the runner's `download_func`. -/
def audioItemRun (procOf : String → SpawnResult) (url : String) : ItemRun :=
  ⟨(download_audio url (procOf url)).1, .ok (download_audio url (procOf url)).2⟩

/-- `msg` is shaped like the runner's caught-fault report, i.e. starts
with `"Exception for "`. -/
def isExceptionForMsg (msg : String) : Bool :=
  isStartOf "Exception for ".data msg.data

/-- The successive counter values of one full runner call: `counterValues`
started from the runner's initial state. -/
def runnerCounterValues (videoUrls : List String) (runOf : String → ItemRun)
    (order : List String) (cpuCount : Option Nat) : List Nat :=
  counterValues videoUrls.length runOf
    ⟨0, [foundMsg videoUrls.length (effectiveWorkers cpuCount)]⟩ order

/-! ### Dispatch (src/yt_downloader.py lines 211-236) -/

/-- What `process_video_download` / `process_audio_download` went on to
run after inspecting the URL. -/
inductive Dispatch where
  | ranBatch (urls : List String)
  | ranSingle (url : String)
  | noVideos
deriving DecidableEq

/-- `process_video_download(url, download_path, status_callback)`:
`playlistEntries` is the list returned by `get_video_urls(url)` (only
consulted on the playlist branch).  Returns what was dispatched and the
messages this function itself sent to the sink before dispatching. -/
def process_video_download (url : String) (playlistEntries : List String) :
    Dispatch × List String :=
  if containsSub (pyLower url) "playlist" then
    if playlistEntries.isEmpty then
      (.noVideos, ["Fetching playlist information...", "No videos found in playlist."])
    else
      (.ranBatch playlistEntries, ["Fetching playlist information..."])
  else
    (.ranSingle url, [])

/-- `process_audio_download(url, download_path, status_callback)`:
identical structure, dispatching to `download_audio`. -/
def process_audio_download (url : String) (playlistEntries : List String) :
    Dispatch × List String :=
  if containsSub (pyLower url) "playlist" then
    if playlistEntries.isEmpty then
      (.noVideos, ["Fetching playlist information...", "No videos found in playlist."])
    else
      (.ranBatch playlistEntries, ["Fetching playlist information..."])
  else
    (.ranSingle url, [])

end YtDownloader

namespace FfmpegManager

open YtDownloader (containsSub strEndsWith)

/-! ### Binary fetcher and locator (src/ffmpeg_manager.py)

The network, archive and filesystem behaviour is an environment value.
Filesystem writes are recorded as an explicit event trace so that frame
conditions can be stated. -/

/-- Local filesystem writes `download_and_extract_ffmpeg` can issue. -/
inductive FsEvent where
  | writeTemp
  | extractMember (name : String)
  | moveToFinal
  | removeTemp
deriving DecidableEq

/-- Environment of one `download_and_extract_ffmpeg` call: whether
`requests.get`/`raise_for_status`/streaming succeed, whether the
downloaded file opens as a ZIP, the archive member names, and whether
extraction of the chosen member succeeds. -/
structure FetchEnv where
  netOk : Bool
  zipOpenOk : Bool
  zipNames : List String
  extractOk : Bool
deriving DecidableEq

/-- The member search of the fetcher: the first archive name whose
lowercase form ends with `ffmpeg.exe`. -/
def findExeMember (names : List String) : Option String :=
  names.find? (fun n => strEndsWith (YtDownloader.pyLower n) "ffmpeg.exe")

/-- `os.path.join` (POSIX form; the separator is irrelevant to the
claims, only equality of joined paths matters). -/
def joinPath (dir name : String) : String := dir ++ "/" ++ name

/-- `download_and_extract_ffmpeg(destination_dir)`: result (the final
path on success, the re-raised exception on failure) together with the
trace of local filesystem writes.  The `except` clause prints and
re-raises, so every internal failure is an `Except.error` result; note
that `os.remove(tmp_zip_path)` is only on the success path. -/
def download_and_extract_ffmpeg (env : FetchEnv) (destinationDir : String) :
    Except String String × List FsEvent :=
  if !env.netOk then (.error "network error during download", [])
  else if !env.zipOpenOk then (.error "invalid zip archive", [.writeTemp])
  else
    match findExeMember env.zipNames with
    | none => (.error "ffmpeg.exe not found in the downloaded zip file.", [.writeTemp])
    | some exeName =>
      if !env.extractOk then (.error "extraction failed", [.writeTemp])
      else if joinPath destinationDir exeName == joinPath destinationDir "ffmpeg.exe" then
        (.ok (joinPath destinationDir "ffmpeg.exe"),
          [.writeTemp, .extractMember exeName, .removeTemp])
      else
        (.ok (joinPath destinationDir "ffmpeg.exe"),
          [.writeTemp, .extractMember exeName, .moveToFinal, .removeTemp])

/-- `True` exactly when some internal step of the fetch fails (and the
fetcher therefore re-raises). -/
def fetchFails (env : FetchEnv) : Bool :=
  !env.netOk || !env.zipOpenOk || (findExeMember env.zipNames).isNone || !env.extractOk

/-- Environment of one `get_ffmpeg_location` call: whether
`ffmpeg.exe` exists next to the program, whether `ffmpeg -version`
succeeds system-wide, the fetch environment, and whether `ffmpeg.exe`
exists locally after a successful fetch. -/
structure LocEnv where
  localExists : Bool
  systemFfmpegOk : Bool
  fetch : FetchEnv
  localExistsAfterFetch : Bool
deriving DecidableEq

/-- `get_ffmpeg_location()`: the `(available, directory)` pair and the
trace of local filesystem writes issued on the way.  `baseDir` is the
resolved base directory. -/
def get_ffmpeg_location (env : LocEnv) (baseDir : String) :
    (Bool × String) × List FsEvent :=
  if env.localExists then ((true, baseDir), [])
  else if env.systemFfmpegOk then ((true, ""), [])
  else
    match download_and_extract_ffmpeg env.fetch baseDir with
    | (.ok _, evs) =>
      if env.localExistsAfterFetch then ((true, baseDir), evs)
      else ((false, ""), evs)
    | (.error _, evs) => ((false, ""), evs)

end FfmpegManager

/-!
## Supporting lemmas
-/

namespace YtDownloader

theorem strDataAppend (a b : String) : (a ++ b).data = a.data ++ b.data := by
  cases a; cases b; rfl

theorem toStringString (s : String) : toString s = s := rfl

theorem isStartOf_refl_append (p t : List Char) : isStartOf p (p ++ t) = true := by
  induction p with
  | nil => rfl
  | cons a p ih => simp [isStartOf, ih]

theorem charsSub_of_isStartOf {p l : List Char} (h : isStartOf p l = true) :
    charsSub p l = true := by
  cases l with
  | nil => simpa [charsSub] using h
  | cons c l => simp [charsSub, h]

theorem charsSub_append_left (a : List Char) {p l : List Char}
    (h : charsSub p l = true) : charsSub p (a ++ l) = true := by
  induction a with
  | nil => simpa using h
  | cons x a ih => simp [charsSub, ih]

theorem containsSub_of_middle {s pat : String} (pre post : List Char)
    (h : s.data = pre ++ (pat.data ++ post)) : containsSub s pat = true := by
  unfold containsSub
  rw [h]
  exact charsSub_append_left pre (charsSub_of_isStartOf (isStartOf_refl_append _ _))

theorem exceptionMsg_data (u e : String) :
    (exceptionMsg u e).data =
      "Exception for ".data ++ (u.data ++ (": ".data ++ e.data)) := by
  simp [exceptionMsg, strDataAppend, toStringString]

theorem exceptionMsg_names_url (u e : String) :
    containsSub (exceptionMsg u e) u = true :=
  containsSub_of_middle "Exception for ".data (": ".data ++ e.data)
    (exceptionMsg_data u e)

theorem foldl_stepItem_completed (total : Nat) (runOf : String → ItemRun) :
    ∀ (perm : List String) (st : BatchState),
      (perm.foldl (stepItem total runOf) st).completed = st.completed + perm.length := by
  intro perm
  induction perm with
  | nil => intro st; simp
  | cons u rest ih =>
    intro st
    simp only [List.foldl_cons, ih, stepItem, List.length_cons]
    omega

theorem foldl_stepItem_trace (total : Nat) (runOf : String → ItemRun) :
    ∀ (perm : List String) (st : BatchState),
      (perm.foldl (stepItem total runOf) st).trace =
        st.trace ++ traceChunks total runOf perm st.completed := by
  intro perm
  induction perm with
  | nil => intro st; simp [traceChunks]
  | cons u rest ih =>
    intro st
    simp [List.foldl_cons, ih, stepItem, traceChunks, List.append_assoc]

theorem counterValues_eq_range' (total : Nat) (runOf : String → ItemRun) :
    ∀ (perm : List String) (st : BatchState),
      counterValues total runOf st perm = List.range' st.completed (perm.length + 1) := by
  intro perm
  induction perm with
  | nil => intro st; simp [counterValues]
  | cons u rest ih =>
    intro st
    simp [counterValues, ih, stepItem, List.range'_succ]

theorem range'_getLast? (s n : Nat) : (List.range' s (n + 1)).getLast? = some (s + n) := by
  induction n generalizing s with
  | zero => simp
  | succ n ih =>
    rw [List.range'_succ, List.range'_succ, List.getLast?_cons_cons,
      ← List.range'_succ, ih (s + 1)]
    congr 1
    omega

theorem counterValues_getLast? (total : Nat) (runOf : String → ItemRun)
    (perm : List String) (st : BatchState) :
    (counterValues total runOf st perm).getLast? =
      some ((perm.foldl (stepItem total runOf) st).completed) := by
  rw [counterValues_eq_range', foldl_stepItem_completed, range'_getLast?]

theorem mem_traceChunks (total : Nat) (runOf : String → ItemRun) :
    ∀ (perm : List String) (c : Nat) (msg : String),
      msg ∈ traceChunks total runOf perm c →
      ∃ u ∈ perm, msg ∈ (runOf u).msgs ∨ msg ∈ faultMsgs u (runOf u).result ∨
        ∃ k, msg = progressMsg k total := by
  intro perm
  induction perm with
  | nil => intro c msg h; simp [traceChunks] at h
  | cons u rest ih =>
    intro c msg h
    simp only [traceChunks, List.append_assoc, List.mem_append, List.mem_singleton] at h
    rcases h with h | h | h | h
    · exact ⟨u, List.mem_cons_self u rest, Or.inl h⟩
    · exact ⟨u, List.mem_cons_self u rest, Or.inr (Or.inl h)⟩
    · exact ⟨u, List.mem_cons_self u rest, Or.inr (Or.inr ⟨c + 1, h⟩)⟩
    · obtain ⟨v, hv, hm⟩ := ih (c + 1) msg h
      exact ⟨v, List.mem_cons_of_mem u hv, hm⟩

theorem exceptionMsg_mem_traceChunks (total : Nat) (runOf : String → ItemRun) :
    ∀ (perm : List String) (c : Nat) (u : String) (exc : String),
      u ∈ perm → (runOf u).result = .error exc →
      exceptionMsg u exc ∈ traceChunks total runOf perm c := by
  intro perm
  induction perm with
  | nil => intro c u exc h _; simp at h
  | cons v rest ih =>
    intro c u exc hmem hres
    rcases List.mem_cons.1 hmem with rfl | hmem
    · simp [traceChunks, faultMsgs, hres]
    · have h := ih (c + 1) u exc hmem hres
      simp only [traceChunks, List.mem_append, List.mem_singleton]
      tauto

end YtDownloader

namespace YtDownloader

theorem progress_sublist_traceChunks (total : Nat) (runOf : String → ItemRun) :
    ∀ (perm : List String) (c : Nat),
      List.Sublist ((List.range' (c + 1) perm.length).map (fun k => progressMsg k total))
        (traceChunks total runOf perm c) := by
  intro perm
  induction perm with
  | nil => intro c; simp [traceChunks]
  | cons u rest ih =>
    intro c
    simp only [List.length_cons, traceChunks, List.append_assoc]
    rw [List.range'_succ, List.map_cons]
    have h2 := (ih (c + 1)).cons₂ (progressMsg (c + 1) total)
    exact h2.trans
      ((List.sublist_append_right (faultMsgs u (runOf u).result)
          ([progressMsg (c + 1) total] ++ traceChunks total runOf rest (c + 1))).trans
        (List.sublist_append_right (runOf u).msgs _))

theorem traceChunks_silent (total : Nat) (runOf : String → ItemRun) :
    ∀ (perm : List String) (c : Nat),
      (∀ u ∈ perm, (runOf u).msgs = [] ∧ (runOf u).result = Except.ok true) →
      traceChunks total runOf perm c =
        (List.range' (c + 1) perm.length).map (fun k => progressMsg k total) := by
  intro perm
  induction perm with
  | nil => intro c _; simp [traceChunks]
  | cons u rest ih =>
    intro c h
    obtain ⟨hm, hr⟩ := h u (List.mem_cons_self u rest)
    rw [List.length_cons, List.range'_succ, List.map_cons]
    simp [traceChunks, hm, hr, faultMsgs,
      ih (c + 1) (fun v hv => h v (List.mem_cons_of_mem u hv))]

theorem handleLine_msgs (rep : Bool) (line : String) :
    (handleLine rep line).1 = [] ∨ (handleLine rep line).1 = ["Postprocessing downloads"] := by
  by_cases h : lineSkipped (pyStrip line) = true
  · left; simp [handleLine, h]
  · by_cases h2 : (linePostprocessing (pyStrip line) && !rep) = true
    · right; simp [handleLine, h, h2]
    · left; simp [handleLine, h, h2]

theorem processLines_msgs (lines : List String) :
    ∀ m ∈ (processLines lines).1, m = "Postprocessing downloads" := by
  unfold processLines
  suffices h : ∀ (acc : List String × Bool),
      (∀ m ∈ acc.1, m = "Postprocessing downloads") →
      ∀ m ∈ (lines.foldl (fun st line =>
        let r := handleLine st.2 line
        (st.1 ++ r.1, r.2)) acc).1, m = "Postprocessing downloads" by
    exact h ([], false) (by simp)
  induction lines with
  | nil => intro acc hacc; simpa using hacc
  | cons l ls ih =>
    intro acc hacc
    rw [List.foldl_cons]
    refine ih _ ?_
    intro m hm
    rcases List.mem_append.1 hm with hm | hm
    · exact hacc m hm
    · rcases handleLine_msgs acc.2 l with h | h <;> rw [h] at hm <;> simp at hm
      exact hm

end YtDownloader

namespace YtDownloader

theorem download_video_msgs (url : String) (proc : SpawnResult) :
    ∀ m ∈ (download_video url proc).1,
      m = "Postprocessing downloads" ∨ m = s!"Completed video: {url}" ∨
      m = s!"Error downloading video: {url}" ∨
      ∃ e : String, m = s!"Exception downloading video: {url}\n{e}" := by
  intro m hm
  cases proc with
  | ran lines rc =>
    by_cases h : (rc == 0) = true
    · simp only [download_video, h, if_pos] at hm
      rcases List.mem_append.1 hm with hm | hm
      · exact Or.inl (processLines_msgs lines m hm)
      · exact Or.inr (Or.inl (List.mem_singleton.1 hm))
    · simp only [download_video, h, if_neg] at hm
      rcases List.mem_append.1 hm with hm | hm
      · exact Or.inl (processLines_msgs lines m hm)
      · exact Or.inr (Or.inr (Or.inl (List.mem_singleton.1 hm)))
  | fault lines e =>
    simp only [download_video] at hm
    rcases List.mem_append.1 hm with hm | hm
    · exact Or.inl (processLines_msgs lines m hm)
    · exact Or.inr (Or.inr (Or.inr ⟨e, List.mem_singleton.1 hm⟩))

theorem download_audio_msgs (url : String) (proc : SpawnResult) :
    ∀ m ∈ (download_audio url proc).1,
      m = "Postprocessing downloads" ∨ m = s!"Completed audio: {url}" ∨
      m = s!"Error downloading audio: {url}" ∨
      ∃ e : String, m = s!"Exception downloading audio: {url}\n{e}" := by
  intro m hm
  cases proc with
  | ran lines rc =>
    by_cases h : (rc == 0) = true
    · simp only [download_audio, h, if_pos] at hm
      rcases List.mem_append.1 hm with hm | hm
      · exact Or.inl (processLines_msgs lines m hm)
      · exact Or.inr (Or.inl (List.mem_singleton.1 hm))
    · simp only [download_audio, h, if_neg] at hm
      rcases List.mem_append.1 hm with hm | hm
      · exact Or.inl (processLines_msgs lines m hm)
      · exact Or.inr (Or.inr (Or.inl (List.mem_singleton.1 hm)))
  | fault lines e =>
    simp only [download_audio] at hm
    rcases List.mem_append.1 hm with hm | hm
    · exact Or.inl (processLines_msgs lines m hm)
    · exact Or.inr (Or.inr (Or.inr ⟨e, List.mem_singleton.1 hm⟩))

theorem notExcFor_postprocessing : isExceptionForMsg "Postprocessing downloads" = false := by
  decide

theorem notExcFor_completed_video (u : String) :
    isExceptionForMsg s!"Completed video: {u}" = false := by
  unfold isExceptionForMsg
  have h : (s!"Completed video: {u}").data = "Completed video: ".data ++ u.data := by
    simp [strDataAppend, toStringString, List.append_assoc]
  rw [h]; rfl

theorem notExcFor_error_video (u : String) :
    isExceptionForMsg s!"Error downloading video: {u}" = false := by
  unfold isExceptionForMsg
  have h : (s!"Error downloading video: {u}").data =
      "Error downloading video: ".data ++ u.data := by
    simp [strDataAppend, toStringString, List.append_assoc]
  rw [h]; rfl

theorem notExcFor_exception_video (u e : String) :
    isExceptionForMsg s!"Exception downloading video: {u}\n{e}" = false := by
  unfold isExceptionForMsg
  have h : (s!"Exception downloading video: {u}\n{e}").data =
      "Exception downloading video: ".data ++ (u.data ++ ("\n".data ++ e.data)) := by
    simp [strDataAppend, toStringString, List.append_assoc]
  rw [h]; rfl

theorem notExcFor_completed_audio (u : String) :
    isExceptionForMsg s!"Completed audio: {u}" = false := by
  unfold isExceptionForMsg
  have h : (s!"Completed audio: {u}").data = "Completed audio: ".data ++ u.data := by
    simp [strDataAppend, toStringString, List.append_assoc]
  rw [h]; rfl

theorem notExcFor_error_audio (u : String) :
    isExceptionForMsg s!"Error downloading audio: {u}" = false := by
  unfold isExceptionForMsg
  have h : (s!"Error downloading audio: {u}").data =
      "Error downloading audio: ".data ++ u.data := by
    simp [strDataAppend, toStringString, List.append_assoc]
  rw [h]; rfl

theorem notExcFor_exception_audio (u e : String) :
    isExceptionForMsg s!"Exception downloading audio: {u}\n{e}" = false := by
  unfold isExceptionForMsg
  have h : (s!"Exception downloading audio: {u}\n{e}").data =
      "Exception downloading audio: ".data ++ (u.data ++ ("\n".data ++ e.data)) := by
    simp [strDataAppend, toStringString, List.append_assoc]
  rw [h]; rfl

theorem notExcFor_foundMsg (t w : Nat) : isExceptionForMsg (foundMsg t w) = false := by
  unfold isExceptionForMsg foundMsg
  have h : (s!"Found {t} items. Using {w} threads...").data =
      "Found ".data ++ ((toString t).data ++ (" items. Using ".data ++
        ((toString w).data ++ " threads...".data))) := by
    simp [strDataAppend, toStringString, List.append_assoc]
  rw [h]; rfl

theorem notExcFor_progressMsg (c t : Nat) : isExceptionForMsg (progressMsg c t) = false := by
  unfold isExceptionForMsg progressMsg
  have h : (s!"Downloads completed {c}/{t}").data =
      "Downloads completed ".data ++ ((toString c).data ++ ("/".data ++ (toString t).data)) := by
    simp [strDataAppend, toStringString, List.append_assoc]
  rw [h]; rfl

theorem notExcFor_terminalMsg : isExceptionForMsg terminalMsg = false := by decide

end YtDownloader

namespace YtDownloader

theorem runner_completed (videoUrls : List String) (runOf : String → ItemRun)
    (order : List String) (cpuCount : Option Nat) :
    (download_playlist_concurrently videoUrls runOf order cpuCount).completed =
      order.length := by
  simp [download_playlist_concurrently, foldl_stepItem_completed]

theorem runner_trace (videoUrls : List String) (runOf : String → ItemRun)
    (order : List String) (cpuCount : Option Nat) :
    (download_playlist_concurrently videoUrls runOf order cpuCount).trace =
      foundMsg videoUrls.length (effectiveWorkers cpuCount) ::
        (traceChunks videoUrls.length runOf order 0 ++ [terminalMsg]) := by
  simp [download_playlist_concurrently, foldl_stepItem_trace]

theorem runner_trace_getLast (videoUrls : List String) (runOf : String → ItemRun)
    (order : List String) (cpuCount : Option Nat) :
    (download_playlist_concurrently videoUrls runOf order cpuCount).trace.getLast? =
      some terminalMsg := by
  rw [runner_trace, ← List.cons_append, List.getLast?_concat]

end YtDownloader

namespace YtDownloader

/-- C1: conservation of completions — for every list of N submitted
WorkItems and every completion order the pool can yield, the shared
counter is incremented exactly once per item and its final value equals
N, whatever the per-item function does (including raising for every
item); the runner always reaches its terminal message rather than
propagating an exception (the embedded runner is total: the
`except` clause of its loop absorbs every per-item fault). -/
theorem C1_conservation_of_completions (videoUrls : List String)
    (runOf : String → ItemRun) (order : List String) (cpuCount : Option Nat)
    (hperm : order.Perm videoUrls) :
    (download_playlist_concurrently videoUrls runOf order cpuCount).completed =
      videoUrls.length ∧
    (download_playlist_concurrently videoUrls runOf order cpuCount).trace.getLast? =
      some terminalMsg :=
  ⟨by rw [runner_completed, hperm.length_eq], runner_trace_getLast _ _ _ _⟩

theorem C1_witness :
    (download_playlist_concurrently ["a", "b"] (fun _ => ⟨[], .error "boom"⟩)
      ["b", "a"] none).completed = 2 ∧
    (download_playlist_concurrently ["a", "b"] (fun _ => ⟨[], .error "boom"⟩)
      ["b", "a"] none).trace.getLast? = some terminalMsg :=
  C1_conservation_of_completions ["a", "b"] _ ["b", "a"] none (by decide)

/-- C2: counter invariant — over any run of the batch runner the shared
`completed` counter is monotonically non-decreasing, never exceeds the
number of submitted items, and each WorkItem contributes exactly one
increment (the counter sequence steps by exactly 1 per completed item,
whether its outcome was success, failure, or a fault), ending at the
runner's final counter value. -/
theorem C2_counter_invariant (videoUrls : List String)
    (runOf : String → ItemRun) (order : List String) (cpuCount : Option Nat)
    (hperm : order.Perm videoUrls) :
    List.Chain' (fun a b => a ≤ b)
      (runnerCounterValues videoUrls runOf order cpuCount) ∧
    List.Chain' (fun a b => b = a + 1)
      (runnerCounterValues videoUrls runOf order cpuCount) ∧
    (∀ c ∈ runnerCounterValues videoUrls runOf order cpuCount, c ≤ videoUrls.length) ∧
    (runnerCounterValues videoUrls runOf order cpuCount).length = order.length + 1 ∧
    (runnerCounterValues videoUrls runOf order cpuCount).getLast? =
      some (download_playlist_concurrently videoUrls runOf order cpuCount).completed := by
  have hcs : runnerCounterValues videoUrls runOf order cpuCount =
      List.range' 0 (order.length + 1) := by
    unfold runnerCounterValues
    rw [counterValues_eq_range']
  have hchain : List.Chain' (fun a b => b = a + 1)
      (runnerCounterValues videoUrls runOf order cpuCount) := by
    rw [hcs, List.range'_succ]
    exact List.chain_succ_range' 0 order.length 1
  refine ⟨hchain.imp (fun a b h => by omega), hchain, ?_, ?_, ?_⟩
  · intro c hc
    rw [hcs] at hc
    have := (List.mem_range'_1.1 hc).2
    have hlen := hperm.length_eq
    omega
  · rw [hcs, List.length_range']
  · unfold runnerCounterValues
    rw [counterValues_getLast?]
    rfl

theorem C2_witness :
    List.Chain' (fun a b => a ≤ b)
      (runnerCounterValues ["a", "b"] (fun _ => ⟨[], .error "boom"⟩) ["b", "a"] none) ∧
    List.Chain' (fun a b => b = a + 1)
      (runnerCounterValues ["a", "b"] (fun _ => ⟨[], .error "boom"⟩) ["b", "a"] none) ∧
    (∀ c ∈ runnerCounterValues ["a", "b"] (fun _ => ⟨[], .error "boom"⟩) ["b", "a"] none,
      c ≤ (["a", "b"] : List String).length) ∧
    (runnerCounterValues ["a", "b"] (fun _ => ⟨[], .error "boom"⟩) ["b", "a"] none).length =
      (["b", "a"] : List String).length + 1 ∧
    (runnerCounterValues ["a", "b"] (fun _ => ⟨[], .error "boom"⟩) ["b", "a"] none).getLast? =
      some (download_playlist_concurrently ["a", "b"] (fun _ => ⟨[], .error "boom"⟩)
        ["b", "a"] none).completed :=
  C2_counter_invariant ["a", "b"] _ ["b", "a"] none (by decide)

/-- C3: fault isolation — if the per-item function raises for some
submitted item, the runner catches it and emits a status message naming
that item, the item still counts toward `completed` (the final counter
is still the full item count), and the batch still runs to its terminal
message. -/
theorem C3_fault_isolation (videoUrls : List String) (runOf : String → ItemRun)
    (order : List String) (cpuCount : Option Nat) (u exc : String)
    (hperm : order.Perm videoUrls) (hu : u ∈ order)
    (hres : (runOf u).result = .error exc) :
    exceptionMsg u exc ∈
      (download_playlist_concurrently videoUrls runOf order cpuCount).trace ∧
    containsSub (exceptionMsg u exc) u = true ∧
    (download_playlist_concurrently videoUrls runOf order cpuCount).completed =
      videoUrls.length ∧
    (download_playlist_concurrently videoUrls runOf order cpuCount).trace.getLast? =
      some terminalMsg := by
  refine ⟨?_, exceptionMsg_names_url u exc, ?_, runner_trace_getLast _ _ _ _⟩
  · rw [runner_trace]
    exact List.mem_cons_of_mem _ (List.mem_append_left _
      (exceptionMsg_mem_traceChunks _ runOf order 0 u exc hu hres))
  · rw [runner_completed, hperm.length_eq]

theorem C3_witness :
    exceptionMsg "b" "boom" ∈
      (download_playlist_concurrently ["a", "b"]
        (fun _ => ⟨[], .error "boom"⟩) ["b", "a"] none).trace ∧
    containsSub (exceptionMsg "b" "boom") "b" = true ∧
    (download_playlist_concurrently ["a", "b"] (fun _ => ⟨[], .error "boom"⟩)
      ["b", "a"] none).completed = 2 ∧
    (download_playlist_concurrently ["a", "b"] (fun _ => ⟨[], .error "boom"⟩)
      ["b", "a"] none).trace.getLast? = some terminalMsg :=
  C3_fault_isolation ["a", "b"] _ ["b", "a"] none "b" "boom"
    (by decide) (by decide) rfl

end YtDownloader

namespace YtDownloader

/-- C5: status-message ordering — the sink trace starts with the one
initial message announcing total item count and worker count, ends with
exactly the terminal batch-complete message, and the numbered progress
messages `1/N … N/N` appear in order before the terminal message; when
the per-item function emits nothing and always succeeds (the spec's
scenario), the trace is exactly initial message, N progress messages,
terminal message. -/
theorem C5_status_message_ordering (videoUrls : List String)
    (runOf : String → ItemRun) (order : List String) (cpuCount : Option Nat)
    (hperm : order.Perm videoUrls) :
    (download_playlist_concurrently videoUrls runOf order cpuCount).trace.head? =
      some (foundMsg videoUrls.length (effectiveWorkers cpuCount)) ∧
    (download_playlist_concurrently videoUrls runOf order cpuCount).trace.getLast? =
      some terminalMsg ∧
    List.Sublist (progressList videoUrls.length)
      (download_playlist_concurrently videoUrls runOf order cpuCount).trace.dropLast ∧
    ((∀ u ∈ order, (runOf u).msgs = [] ∧ (runOf u).result = Except.ok true) →
      (download_playlist_concurrently videoUrls runOf order cpuCount).trace =
        foundMsg videoUrls.length (effectiveWorkers cpuCount) ::
          (progressList videoUrls.length ++ [terminalMsg])) := by
  have hdrop :
      (download_playlist_concurrently videoUrls runOf order cpuCount).trace.dropLast =
        foundMsg videoUrls.length (effectiveWorkers cpuCount) ::
          traceChunks videoUrls.length runOf order 0 := by
    rw [runner_trace, ← List.cons_append, List.dropLast_concat]
  refine ⟨?_, runner_trace_getLast _ _ _ _, ?_, ?_⟩
  · rw [runner_trace]; rfl
  · rw [hdrop]
    refine List.Sublist.cons _ ?_
    have h := progress_sublist_traceChunks videoUrls.length runOf order 0
    rw [hperm.length_eq] at h
    exact h
  · intro hsilent
    rw [runner_trace, traceChunks_silent videoUrls.length runOf order 0 hsilent,
      hperm.length_eq]
    rfl

theorem C5_witness :
    (download_playlist_concurrently ["a", "b", "c"] (fun _ => ⟨[], .ok true⟩)
      ["b", "a", "c"] (some 2)).trace.head? = some (foundMsg 3 (effectiveWorkers (some 2))) ∧
    (download_playlist_concurrently ["a", "b", "c"] (fun _ => ⟨[], .ok true⟩)
      ["b", "a", "c"] (some 2)).trace.getLast? = some terminalMsg ∧
    List.Sublist (progressList 3)
      (download_playlist_concurrently ["a", "b", "c"] (fun _ => ⟨[], .ok true⟩)
        ["b", "a", "c"] (some 2)).trace.dropLast ∧
    ((∀ u ∈ ["b", "a", "c"], (ItemRun.mk [] (Except.ok true)).msgs = [] ∧
        (ItemRun.mk [] (Except.ok true)).result = Except.ok true) →
      (download_playlist_concurrently ["a", "b", "c"] (fun _ => ⟨[], .ok true⟩)
        ["b", "a", "c"] (some 2)).trace =
        foundMsg 3 (effectiveWorkers (some 2)) :: (progressList 3 ++ [terminalMsg])) :=
  C5_status_message_ordering ["a", "b", "c"] (fun _ => ⟨[], .ok true⟩)
    ["b", "a", "c"] (some 2) (by decide)

/-- C8: degenerate concurrency — with a worker count of 1 the pool's
only admissible completion order is the submission order, and the
runner's behaviour coincides with the strictly sequential
submission-order run `runBatchSequentialSpec`. -/
theorem C8_degenerate_concurrency (videoUrls : List String)
    (runOf : String → ItemRun) (order : List String)
    (hpool : poolCompletionOrder (effectiveWorkers (some 1)) videoUrls order) :
    order = videoUrls ∧
    download_playlist_concurrently videoUrls runOf order (some 1) =
      runBatchSequentialSpec videoUrls runOf (some 1) := by
  have h : order = videoUrls := hpool.2 rfl
  subst h
  exact ⟨rfl, rfl⟩

theorem C8_witness :
    (["a", "b"] : List String) = ["a", "b"] ∧
    download_playlist_concurrently ["a", "b"] (fun _ => ⟨[], .ok true⟩)
      ["a", "b"] (some 1) =
      runBatchSequentialSpec ["a", "b"] (fun _ => ⟨[], .ok true⟩) (some 1) :=
  C8_degenerate_concurrency ["a", "b"] _ ["a", "b"]
    ⟨List.Perm.refl _, fun _ => rfl⟩

end YtDownloader

namespace YtDownloader

theorem exceptionVideoMsg_data (u e : String) :
    (s!"Exception downloading video: {u}\n{e}").data =
      "Exception downloading video: ".data ++ (u.data ++ ("\n".data ++ e.data)) := by
  simp [strDataAppend, toStringString, List.append_assoc]

theorem exceptionAudioMsg_data (u e : String) :
    (s!"Exception downloading audio: {u}\n{e}").data =
      "Exception downloading audio: ".data ++ (u.data ++ ("\n".data ++ e.data)) := by
  simp [strDataAppend, toStringString, List.append_assoc]

theorem video_no_fault_report (videoUrls : List String)
    (procOf : String → SpawnResult) (order : List String)
    (cpuCount : Option Nat) (msg : String)
    (hmem : msg ∈ (download_playlist_concurrently videoUrls
      (videoItemRun procOf) order cpuCount).trace) :
    isExceptionForMsg msg = false := by
  rw [runner_trace] at hmem
  rcases List.mem_cons.1 hmem with rfl | hmem
  · exact notExcFor_foundMsg _ _
  rcases List.mem_append.1 hmem with hmem | hmem
  · obtain ⟨u, _, hcase⟩ := mem_traceChunks _ _ _ _ _ hmem
    rcases hcase with h | h | ⟨k, rfl⟩
    · rcases download_video_msgs u (procOf u) msg h with rfl | rfl | rfl | ⟨e, rfl⟩
      · exact notExcFor_postprocessing
      · exact notExcFor_completed_video u
      · exact notExcFor_error_video u
      · exact notExcFor_exception_video u e
    · simp [videoItemRun, faultMsgs] at h
    · exact notExcFor_progressMsg k _
  · rw [List.mem_singleton] at hmem
    subst hmem
    exact notExcFor_terminalMsg

theorem audio_no_fault_report (videoUrls : List String)
    (procOf : String → SpawnResult) (order : List String)
    (cpuCount : Option Nat) (msg : String)
    (hmem : msg ∈ (download_playlist_concurrently videoUrls
      (audioItemRun procOf) order cpuCount).trace) :
    isExceptionForMsg msg = false := by
  rw [runner_trace] at hmem
  rcases List.mem_cons.1 hmem with rfl | hmem
  · exact notExcFor_foundMsg _ _
  rcases List.mem_append.1 hmem with hmem | hmem
  · obtain ⟨u, _, hcase⟩ := mem_traceChunks _ _ _ _ _ hmem
    rcases hcase with h | h | ⟨k, rfl⟩
    · rcases download_audio_msgs u (procOf u) msg h with rfl | rfl | rfl | ⟨e, rfl⟩
      · exact notExcFor_postprocessing
      · exact notExcFor_completed_audio u
      · exact notExcFor_error_audio u
      · exact notExcFor_exception_audio u e
    · simp [audioItemRun, faultMsgs] at h
    · exact notExcFor_progressMsg k _
  · rw [List.mem_singleton] at hmem
    subst hmem
    exact notExcFor_terminalMsg

/-- C9: per-item totality — `download_video` and `download_audio` never
propagate an exception: on any fault while invoking the subprocess they
emit (as their last message) a status message naming the URL and return
`false`; consequently, when they are the runner's per-item function no
message of the runner's caught-fault shape (`"Exception for …"`) ever
reaches the sink — the fault branch is unreachable. -/
theorem C9_per_item_totality :
    (∀ (url : String) (linesRead : List String) (e : String),
      (download_video url (.fault linesRead e)).2 = false ∧
      (download_video url (.fault linesRead e)).1.getLast? =
        some s!"Exception downloading video: {url}\n{e}" ∧
      containsSub s!"Exception downloading video: {url}\n{e}" url = true) ∧
    (∀ (url : String) (linesRead : List String) (e : String),
      (download_audio url (.fault linesRead e)).2 = false ∧
      (download_audio url (.fault linesRead e)).1.getLast? =
        some s!"Exception downloading audio: {url}\n{e}" ∧
      containsSub s!"Exception downloading audio: {url}\n{e}" url = true) ∧
    (∀ (videoUrls : List String) (procOf : String → SpawnResult)
        (order : List String) (cpuCount : Option Nat) (msg : String),
      msg ∈ (download_playlist_concurrently videoUrls
        (videoItemRun procOf) order cpuCount).trace →
      isExceptionForMsg msg = false) ∧
    (∀ (videoUrls : List String) (procOf : String → SpawnResult)
        (order : List String) (cpuCount : Option Nat) (msg : String),
      msg ∈ (download_playlist_concurrently videoUrls
        (audioItemRun procOf) order cpuCount).trace →
      isExceptionForMsg msg = false) := by
  refine ⟨?_, ?_, video_no_fault_report, audio_no_fault_report⟩
  · intro url linesRead e
    refine ⟨rfl, ?_, ?_⟩
    · simp [download_video, List.getLast?_concat]
    · exact containsSub_of_middle "Exception downloading video: ".data
        ("\n".data ++ e.data) (exceptionVideoMsg_data url e)
  · intro url linesRead e
    refine ⟨rfl, ?_, ?_⟩
    · simp [download_audio, List.getLast?_concat]
    · exact containsSub_of_middle "Exception downloading audio: ".data
        ("\n".data ++ e.data) (exceptionAudioMsg_data url e)

theorem C9_witness :
    (download_video "u" (.fault [] "err")).2 = false ∧
    (download_audio "u" (.fault [] "err")).2 = false ∧
    isExceptionForMsg "Found 1 items. Using 4 threads..." = false ∧
    isExceptionForMsg "Completed audio: x" = false :=
  ⟨(C9_per_item_totality.1 "u" [] "err").1,
   (C9_per_item_totality.2.1 "u" [] "err").1,
   C9_per_item_totality.2.2.1 ["x"] (fun _ => .ran [] 0) ["x"] none _ (by decide),
   C9_per_item_totality.2.2.2 ["x"] (fun _ => .ran [] 0) ["x"] none _ (by decide)⟩

end YtDownloader

namespace YtDownloader

/-- C7 counterexample: the stripped line `"merging via ios player"`
contains neither a percent sign nor (case-insensitively) `"speed"`, yet
the filter skips it (because of the additional `"ios player"` test) and
it triggers no message — in particular not the postprocessing notice
the claim's "remaining lines" clause predicts for a line containing
`"merg"`. -/
theorem C7_counterexample :
    containsSub (pyStrip "merging via ios player") "%" = false ∧
    containsSub (pyLower (pyStrip "merging via ios player")) "speed" = false ∧
    linePostprocessing (pyStrip "merging via ios player") = true ∧
    lineSkipped (pyStrip "merging via ios player") = true ∧
    handleLine false "merging via ios player" = ([], false) := by decide

/-- C7 (amended): a line whose stripped form contains a percent sign
or, case-insensitively, `"speed"` or `"ios player"` triggers no message
to the sink; those are the lines the filter skips; of the remaining
lines, one containing `"merg"` or `"postprocess"` triggers the single
postprocessing notice, and the others trigger nothing. -/
theorem C7_line_filtering (line : String) (rep : Bool) :
    ((containsSub (pyStrip line) "%" = true ∨
      containsSub (pyLower (pyStrip line)) "speed" = true ∨
      containsSub (pyLower (pyStrip line)) "ios player" = true) →
      (handleLine rep line).1 = []) ∧
    (lineSkipped (pyStrip line) = false → linePostprocessing (pyStrip line) = true →
      rep = false → handleLine rep line = (["Postprocessing downloads"], true)) ∧
    (lineSkipped (pyStrip line) = false → linePostprocessing (pyStrip line) = false →
      (handleLine rep line).1 = []) := by
  refine ⟨?_, ?_, ?_⟩
  · intro h
    have hskip : lineSkipped (pyStrip line) = true := by
      unfold lineSkipped
      rcases h with h | h | h <;> simp [h]
    simp [handleLine, hskip]
  · intro hskip hpost hrep
    subst hrep
    simp [handleLine, hskip, hpost]
  · intro hskip hpost
    simp [handleLine, hskip, hpost]

theorem C7_witness :
    ((containsSub (pyStrip "[download]  12.3% of 1MiB") "%" = true ∨
      containsSub (pyLower (pyStrip "[download]  12.3% of 1MiB")) "speed" = true ∨
      containsSub (pyLower (pyStrip "[download]  12.3% of 1MiB")) "ios player" = true) →
      (handleLine false "[download]  12.3% of 1MiB").1 = []) ∧
    (handleLine false "[Merger] Merging formats" = (["Postprocessing downloads"], true)) ∧
    ((handleLine true "plain output line").1 = []) :=
  ⟨(C7_line_filtering "[download]  12.3% of 1MiB" false).1,
   (C7_line_filtering "[Merger] Merging formats" false).2.1 (by decide) (by decide) rfl,
   (C7_line_filtering "plain output line" true).2.2 (by decide) (by decide)⟩

/-- C10: batch dispatch predicate — `process_video_download` and
`process_audio_download` invoke the batch runner iff the URL contains
`"playlist"` case-insensitively and the playlist expansion is
non-empty; on an empty expansion they emit `"No videos found in
playlist."` and return without downloading; otherwise the per-item
download function is invoked exactly once, directly on the URL. -/
theorem C10_dispatch (url : String) (entries : List String) :
    ((process_video_download url entries).1 = Dispatch.ranBatch entries ↔
      (containsSub (pyLower url) "playlist" = true ∧ entries ≠ [])) ∧
    (containsSub (pyLower url) "playlist" = true → entries = [] →
      process_video_download url entries =
        (Dispatch.noVideos,
          ["Fetching playlist information...", "No videos found in playlist."])) ∧
    (containsSub (pyLower url) "playlist" = false →
      process_video_download url entries = (Dispatch.ranSingle url, [])) ∧
    ((process_audio_download url entries).1 = Dispatch.ranBatch entries ↔
      (containsSub (pyLower url) "playlist" = true ∧ entries ≠ [])) ∧
    (containsSub (pyLower url) "playlist" = true → entries = [] →
      process_audio_download url entries =
        (Dispatch.noVideos,
          ["Fetching playlist information...", "No videos found in playlist."])) ∧
    (containsSub (pyLower url) "playlist" = false →
      process_audio_download url entries = (Dispatch.ranSingle url, [])) := by
  by_cases hp : containsSub (pyLower url) "playlist" = true
  · by_cases he : entries.isEmpty = true
    · have he' : entries = [] := List.isEmpty_iff.1 he
      subst he'
      simp [process_video_download, process_audio_download, hp]
    · have he' : entries ≠ [] := by
        intro h
        subst h
        exact he rfl
      simp [process_video_download, process_audio_download, hp, he, he']
  · have hp' : containsSub (pyLower url) "playlist" = false := by
      simpa using hp
    simp [process_video_download, process_audio_download, hp', hp]

theorem C10_witness :
    ((process_video_download "https://youtube.com/PLAYLIST?list=1" ["v1", "v2"]).1 =
        Dispatch.ranBatch ["v1", "v2"] ↔
      (containsSub (pyLower "https://youtube.com/PLAYLIST?list=1") "playlist" = true ∧
        (["v1", "v2"] : List String) ≠ [])) ∧
    (process_audio_download "https://youtu.be/xyz" [] =
      (Dispatch.ranSingle "https://youtu.be/xyz", [])) :=
  ⟨(C10_dispatch "https://youtube.com/PLAYLIST?list=1" ["v1", "v2"]).1,
   (C10_dispatch "https://youtu.be/xyz" []).2.2.2.2.2 (by decide)⟩

end YtDownloader

namespace FfmpegManager

theorem fetch_result_cases (f : FetchEnv) (d : String) :
    (fetchFails f = true → ∃ e, (download_and_extract_ffmpeg f d).1 = Except.error e) ∧
    (fetchFails f = false →
      (download_and_extract_ffmpeg f d).1 = Except.ok (joinPath d "ffmpeg.exe")) := by
  unfold fetchFails download_and_extract_ffmpeg
  cases hn : f.netOk with
  | false => simp
  | true =>
    cases hz : f.zipOpenOk with
    | false => simp
    | true =>
      cases hm : findExeMember f.zipNames with
      | none => simp [hm]
      | some exeName =>
        cases hx : f.extractOk with
        | false => simp [hm]
        | true =>
          by_cases hj : (joinPath d exeName == joinPath d "ffmpeg.exe") = true
          · simp [hm, hj]
          · simp [hm, hj]

theorem fetch_fail_events (f : FetchEnv) (d : String) (h : fetchFails f = true) :
    (download_and_extract_ffmpeg f d).2 = [] ∨
    (download_and_extract_ffmpeg f d).2 = [FsEvent.writeTemp] := by
  unfold fetchFails at h
  unfold download_and_extract_ffmpeg
  cases hn : f.netOk with
  | false => simp
  | true =>
    cases hz : f.zipOpenOk with
    | false => simp
    | true =>
      cases hm : findExeMember f.zipNames with
      | none => simp [hm]
      | some exeName =>
        cases hx : f.extractOk with
        | false => simp [hm]
        | true =>
          rw [hn, hz, hm, hx] at h
          simp at h

end FfmpegManager

namespace FfmpegManager

/-- C4: Binary Locator contract and precedence — `get_ffmpeg_location`
returns `(true, baseDir)` when the well-known local path holds the
binary; else `(true, "")` when the system version-probe exits zero;
else it fetches and re-checks the local path, returning
`(true, baseDir)` on success and `(false, "")` on any failure, never
propagating; while `download_and_extract_ffmpeg` re-raises its own
failure (an `Except.error` result) to its direct caller, and succeeds
exactly when no internal step fails. -/
theorem C4_binary_locator (env : LocEnv) (baseDir : String) :
    (env.localExists = true → (get_ffmpeg_location env baseDir).1 = (true, baseDir)) ∧
    (env.localExists = false → env.systemFfmpegOk = true →
      (get_ffmpeg_location env baseDir).1 = (true, "")) ∧
    (env.localExists = false → env.systemFfmpegOk = false →
      fetchFails env.fetch = false → env.localExistsAfterFetch = true →
      (get_ffmpeg_location env baseDir).1 = (true, baseDir)) ∧
    (env.localExists = false → env.systemFfmpegOk = false →
      (fetchFails env.fetch = true ∨ env.localExistsAfterFetch = false) →
      (get_ffmpeg_location env baseDir).1 = (false, "")) ∧
    (fetchFails env.fetch = true →
      ∃ e, (download_and_extract_ffmpeg env.fetch baseDir).1 = Except.error e) ∧
    (fetchFails env.fetch = false →
      ∃ p, (download_and_extract_ffmpeg env.fetch baseDir).1 = Except.ok p) := by
  refine ⟨?_, ?_, ?_, ?_, (fetch_result_cases env.fetch baseDir).1,
    fun h => ⟨_, (fetch_result_cases env.fetch baseDir).2 h⟩⟩
  · intro hl
    simp [get_ffmpeg_location, hl]
  · intro hl hs
    simp [get_ffmpeg_location, hl, hs]
  · intro hl hs hfok hafter
    have hok := (fetch_result_cases env.fetch baseDir).2 hfok
    rcases hd : download_and_extract_ffmpeg env.fetch baseDir with ⟨r, evs⟩
    rw [hd] at hok
    simp only at hok
    subst hok
    simp [get_ffmpeg_location, hl, hs, hd, hafter]
  · intro hl hs hbad
    rcases hd : download_and_extract_ffmpeg env.fetch baseDir with ⟨r, evs⟩
    rcases hbad with hfail | hafter
    · obtain ⟨e, he⟩ := (fetch_result_cases env.fetch baseDir).1 hfail
      rw [hd] at he
      simp only at he
      subst he
      simp [get_ffmpeg_location, hl, hs, hd]
    · cases r with
      | error e => simp [get_ffmpeg_location, hl, hs, hd]
      | ok p => simp [get_ffmpeg_location, hl, hs, hd, hafter]

theorem C4_witness :
    (get_ffmpeg_location ⟨true, false, ⟨true, true, [], true⟩, false⟩ "base").1 =
      (true, "base") ∧
    (get_ffmpeg_location ⟨false, true, ⟨true, true, [], true⟩, false⟩ "base").1 =
      (true, "") ∧
    (get_ffmpeg_location ⟨false, false, ⟨true, true, ["ffmpeg.exe"], true⟩, true⟩
      "base").1 = (true, "base") ∧
    (get_ffmpeg_location ⟨false, false, ⟨false, true, [], true⟩, false⟩ "base").1 =
      (false, "") ∧
    (∃ e, (download_and_extract_ffmpeg ⟨false, true, [], true⟩ "base").1 =
      Except.error e) ∧
    (∃ p, (download_and_extract_ffmpeg ⟨true, true, ["ffmpeg.exe"], true⟩ "base").1 =
      Except.ok p) :=
  ⟨(C4_binary_locator ⟨true, false, ⟨true, true, [], true⟩, false⟩ "base").1 rfl,
   (C4_binary_locator ⟨false, true, ⟨true, true, [], true⟩, false⟩ "base").2.1 rfl rfl,
   (C4_binary_locator ⟨false, false, ⟨true, true, ["ffmpeg.exe"], true⟩, true⟩
     "base").2.2.1 rfl rfl (by decide) rfl,
   (C4_binary_locator ⟨false, false, ⟨false, true, [], true⟩, false⟩ "base").2.2.2.1
     rfl rfl (Or.inl (by decide)),
   (C4_binary_locator ⟨false, false, ⟨false, true, [], true⟩, false⟩ "base").2.2.2.2.1
     (by decide),
   (C4_binary_locator ⟨false, false, ⟨true, true, ["ffmpeg.exe"], true⟩, true⟩
     "base").2.2.2.2.2 (by decide)⟩

/-- C6 counterexample: with no local binary, a failing probe, and a
fetch that downloads fine but finds no `ffmpeg.exe` in the archive, the
locator does return `(false, "")`, but the temporary ZIP has been
written and is NOT removed by the time the call returns —
`os.remove(tmp_zip_path)` lies on the success path only. -/
theorem C6_counterexample :
    fetchFails ⟨true, true, ["doc.txt"], true⟩ = true ∧
    (get_ffmpeg_location ⟨false, false, ⟨true, true, ["doc.txt"], true⟩, false⟩ ".").1 =
      (false, "") ∧
    (get_ffmpeg_location ⟨false, false, ⟨true, true, ["doc.txt"], true⟩, false⟩ ".").2 =
      [FsEvent.writeTemp] ∧
    FsEvent.removeTemp ∉
      (get_ffmpeg_location ⟨false, false, ⟨true, true, ["doc.txt"], true⟩, false⟩ ".").2 := by
  decide

/-- C6 (amended): when the locator finds no local binary, the system
probe fails and the fetch fails, it returns `(false, "")` and the
attempt issues no local filesystem writes other than possibly the
temporary archive file; that temporary file is not removed on the
failure path. -/
theorem C6_failed_fetch_frame (env : LocEnv) (baseDir : String)
    (hlocal : env.localExists = false) (hsys : env.systemFfmpegOk = false)
    (hfail : fetchFails env.fetch = true) :
    (get_ffmpeg_location env baseDir).1 = (false, "") ∧
    (∀ ev ∈ (get_ffmpeg_location env baseDir).2, ev = FsEvent.writeTemp) ∧
    FsEvent.removeTemp ∉ (get_ffmpeg_location env baseDir).2 := by
  obtain ⟨e, he⟩ := (fetch_result_cases env.fetch baseDir).1 hfail
  have hev := fetch_fail_events env.fetch baseDir hfail
  rcases hd : download_and_extract_ffmpeg env.fetch baseDir with ⟨r, evs⟩
  rw [hd] at he hev
  simp only at he hev
  subst he
  have hloc : get_ffmpeg_location env baseDir = ((false, ""), evs) := by
    simp [get_ffmpeg_location, hlocal, hsys, hd]
  rw [hloc]
  rcases hev with rfl | rfl
  · exact ⟨rfl, by simp, by simp⟩
  · exact ⟨rfl, by simp, by simp⟩

theorem C6_witness :
    (get_ffmpeg_location ⟨false, false, ⟨false, true, [], true⟩, false⟩ "dir").1 =
      (false, "") ∧
    (∀ ev ∈ (get_ffmpeg_location ⟨false, false, ⟨false, true, [], true⟩, false⟩ "dir").2,
      ev = FsEvent.writeTemp) ∧
    FsEvent.removeTemp ∉
      (get_ffmpeg_location ⟨false, false, ⟨false, true, [], true⟩, false⟩ "dir").2 :=
  C6_failed_fetch_frame ⟨false, false, ⟨false, true, [], true⟩, false⟩ "dir"
    rfl rfl (by decide)

end FfmpegManager
